import Mathlib

/-!
Verification of the TiProxy SQL proxy core against its natural-language
specification.

The development shallowly embeds:
* the connection registry / server (`SQLServer.onConn`, `SQLServer.Close`
  from the server source file): admission control, connection-id assignment,
  registry maintenance and shutdown;
* the administrative HTTP handlers (`api.go`): JSON response contract and
  the conditional basic-auth middleware;
* the backend connection manager's handshake, auth-plugin exchange, second
  handshake and redirection algorithm.  The implementation of these is not
  part of the sources (only its test file is present), so they are modelled
  from the specification, as marked on each definition.
-/

namespace TiProxy

/-! ## Connection registry / server (embedding of `serverState` and
`SQLServer.onConn`) -/

/-- `uint64` modulus: the connection-id counter is a Go `uint64`. -/
def U64 : Nat := 2 ^ 64

/-- Embedding of `serverState`: the lock-guarded mutable state of the
`SQLServer`.  The `clients` map `map[uint64]*client.ClientConnection` is
embedded as the finite set of registered connection ids. -/
structure ServerState where
  tcpKeepAlive : Bool
  connID : Nat
  maxConnections : Nat
  clients : Finset Nat
  deriving DecidableEq

/-- Result of the admission-control section of `SQLServer.onConn`. -/
inductive AdmitResult where
  | admitted (connID : Nat)
  | rejected
  deriving DecidableEq, Repr

/-- Socket operations performed by the server on a client socket. -/
inductive SocketOp where
  | closeSocket
  | writeBytes (n : Nat)
  deriving DecidableEq, Repr

/-- Embedding of the admission section of `SQLServer.onConn`, lines
109–127: under the single lock, read the registered count, compare it with
`maxConnections` (`0` means unlimited), and either close the new socket and
register nothing, or assign `connID` from the counter, increment the
counter, and register the connection — all before the lock is released, so
the whole section is one atomic step. -/
def onConn (s : ServerState) : ServerState × AdmitResult × List SocketOp :=
  if s.maxConnections ≠ 0 ∧ s.maxConnections ≤ s.clients.card then
    (s, AdmitResult.rejected, [SocketOp.closeSocket])
  else
    ({ s with
        connID := (s.connID + 1) % U64,
        clients := insert s.connID s.clients },
      AdmitResult.admitted s.connID, [])

/-- Embedding of the deferred block of `SQLServer.onConn`, lines 132–139:
when the per-connection handler exits (for any reason), the connection id
is deleted from the registry under the lock and the `ClientConnection` is
closed. -/
def handlerExit (s : ServerState) (id : Nat) : ServerState × List SocketOp :=
  ({ s with clients := s.clients.erase id }, [SocketOp.closeSocket])

/-- Interleaving events observed by the registry: a new accepted socket
entering `onConn`, or a per-connection handler exiting. -/
inductive ServerEvent where
  | accept
  | exit (id : Nat)
  deriving DecidableEq, Repr

/-- One registry transition. -/
def stepServer (s : ServerState) : ServerEvent → ServerState
  | ServerEvent.accept => (onConn s).1
  | ServerEvent.exit id => (handlerExit s id).1

/-- Run a sequence of registry events. -/
def runServer (s : ServerState) : List ServerEvent → ServerState
  | [] => s
  | e :: es => runServer (stepServer s e) es

/-- The server state built by `NewSQLServer`: counter at `0`, empty client
map. -/
def initServer (keepAlive : Bool) (maxConns : Nat) : ServerState :=
  { tcpKeepAlive := keepAlive, connID := 0, maxConnections := maxConns,
    clients := ∅ }

/-- Connection ids handed out along a trace, in admission order. -/
def admittedIds (s : ServerState) : List ServerEvent → List Nat
  | [] => []
  | ServerEvent.accept :: es =>
    match onConn s with
    | (s', AdmitResult.admitted id, _) => id :: admittedIds s' es
    | (s', AdmitResult.rejected, _) => admittedIds s' es
  | ServerEvent.exit id :: es =>
    admittedIds (stepServer s (ServerEvent.exit id)) es

/-- Connection ids whose handlers exited along a trace. -/
def exitedIds : List ServerEvent → List Nat
  | [] => []
  | ServerEvent.exit id :: es => id :: exitedIds es
  | ServerEvent.accept :: es => exitedIds es

/-- A trace is well formed when every `exit` event belongs to a currently
registered handler — which is how the real system behaves: a handler exits
exactly once, after having been admitted. -/
def wfTrace (s : ServerState) : List ServerEvent → Bool
  | [] => true
  | ServerEvent.accept :: es => wfTrace (stepServer s ServerEvent.accept) es
  | ServerEvent.exit id :: es =>
    decide (id ∈ s.clients) && wfTrace (stepServer s (ServerEvent.exit id)) es

/-! ### Basic step lemmas -/

theorem onConn_cases (s : ServerState) :
    (onConn s = (s, AdmitResult.rejected, [SocketOp.closeSocket]) ∧
      s.maxConnections ≠ 0 ∧ s.maxConnections ≤ s.clients.card) ∨
    (onConn s =
      ({ s with
          connID := (s.connID + 1) % U64,
          clients := insert s.connID s.clients },
        AdmitResult.admitted s.connID, []) ∧
      ¬(s.maxConnections ≠ 0 ∧ s.maxConnections ≤ s.clients.card)) := by
  by_cases h : s.maxConnections ≠ 0 ∧ s.maxConnections ≤ s.clients.card
  · exact Or.inl ⟨by simp [onConn, h], h⟩
  · exact Or.inr ⟨by simp only [onConn, if_neg h], h⟩

theorem step_maxConnections (s : ServerState) (e : ServerEvent) :
    (stepServer s e).maxConnections = s.maxConnections := by
  cases e with
  | accept =>
    rcases onConn_cases s with ⟨h, _⟩ | ⟨h, _⟩ <;> simp [stepServer, h]
  | exit id => simp [stepServer, handlerExit]

theorem run_maxConnections (s : ServerState) (es : List ServerEvent) :
    (runServer s es).maxConnections = s.maxConnections := by
  induction es generalizing s with
  | nil => rfl
  | cons e es ih => rw [runServer, ih, step_maxConnections]

/-! ### Admission limit (claim C2) -/

theorem run_card_le (es : List ServerEvent) (s : ServerState)
    (hmax : s.maxConnections ≠ 0)
    (hcard : s.clients.card ≤ s.maxConnections) :
    (runServer s es).clients.card ≤ s.maxConnections := by
  induction es generalizing s with
  | nil => exact hcard
  | cons e es ih =>
    rw [runServer]
    cases e with
    | accept =>
      rcases onConn_cases s with ⟨hC, hg⟩ | ⟨hC, hg⟩
      · have hs : stepServer s ServerEvent.accept = s := by
          simp [stepServer, hC]
        rw [hs]
        exact ih s hmax hcard
      · have hlt : s.clients.card < s.maxConnections := by
          rcases Decidable.not_and_iff_or_not.mp hg with h | h
          · exact absurd hmax (by simpa using h)
          · omega
        have hs : stepServer s ServerEvent.accept =
            { s with
                connID := (s.connID + 1) % U64,
                clients := insert s.connID s.clients } := by
          simp [stepServer, hC]
        rw [hs]
        refine ih _ hmax ?_
        calc (insert s.connID s.clients).card ≤ s.clients.card + 1 :=
              Finset.card_insert_le _ _
          _ ≤ s.maxConnections := hlt
    | exit id =>
      refine ih _ hmax ?_
      calc (stepServer s (ServerEvent.exit id)).clients.card
            = (s.clients.erase id).card := by simp [stepServer, handlerExit]
        _ ≤ s.clients.card := Finset.card_erase_le
        _ ≤ s.maxConnections := hcard

/-! ### Connection-id assignment (claim C7) -/

theorem admittedIds_facts (es : List ServerEvent) (s : ServerState)
    (h : s.connID + es.length < U64) :
    s.connID ≤ (runServer s es).connID ∧
    (∀ x ∈ admittedIds s es, s.connID ≤ x ∧ x < (runServer s es).connID) ∧
    List.Pairwise (· < ·) (admittedIds s es) := by
  induction es generalizing s with
  | nil =>
    refine ⟨le_refl _, ?_, ?_⟩ <;> simp [admittedIds, runServer]
  | cons e es ih =>
    rw [List.length_cons] at h
    cases e with
    | accept =>
      rcases onConn_cases s with ⟨hC, hg⟩ | ⟨hC, hg⟩
      · have hs : stepServer s ServerEvent.accept = s := by
          simp [stepServer, hC]
        have hA : admittedIds s (ServerEvent.accept :: es) =
            admittedIds s es := by
          simp only [admittedIds, hC]
        have hR : runServer s (ServerEvent.accept :: es) = runServer s es := by
          rw [runServer, hs]
        rw [hA, hR]
        exact ih s (by omega)
      · have hmod : (s.connID + 1) % U64 = s.connID + 1 :=
          Nat.mod_eq_of_lt (by omega)
        set s' : ServerState :=
          { s with
              connID := (s.connID + 1) % U64,
              clients := insert s.connID s.clients } with hs'
        have hs'id : s'.connID = s.connID + 1 := by
          rw [hs', hmod]
        have hs : stepServer s ServerEvent.accept = s' := by
          simp [stepServer, hC, hs']
        have hA : admittedIds s (ServerEvent.accept :: es) =
            s.connID :: admittedIds s' es := by
          simp only [admittedIds, hC]
        have hR : runServer s (ServerEvent.accept :: es) = runServer s' es := by
          rw [runServer, hs]
        have ih' := ih s' (by rw [hs'id]; omega)
        rw [hA, hR]
        refine ⟨?_, ?_, ?_⟩
        · calc s.connID ≤ s'.connID := by omega
            _ ≤ (runServer s' es).connID := ih'.1
        · intro x hx
          rcases List.mem_cons.mp hx with rfl | hx
          · exact ⟨le_refl _, by
              have := ih'.1
              omega⟩
          · have := ih'.2.1 x hx
            omega
        · refine List.pairwise_cons.mpr ⟨?_, ih'.2.2⟩
          intro x hx
          have := ih'.2.1 x hx
          omega
    | exit id =>
      have hid : (stepServer s (ServerEvent.exit id)).connID = s.connID := by
        simp [stepServer, handlerExit]
      have hA : admittedIds s (ServerEvent.exit id :: es) =
          admittedIds (stepServer s (ServerEvent.exit id)) es := by
        simp only [admittedIds]
      have hR : runServer s (ServerEvent.exit id :: es) =
          runServer (stepServer s (ServerEvent.exit id)) es := by
        rw [runServer]
      rw [hA, hR]
      have ih' := ih (stepServer s (ServerEvent.exit id)) (by rw [hid]; omega)
      rw [← hid]
      exact ih'

/-! ### Registry exactness (claim C10) -/

theorem run_clients_eq (es : List ServerEvent) (s : ServerState)
    (hwf : wfTrace s es = true)
    (h : s.connID + es.length < U64)
    (hcl : ∀ x ∈ s.clients, x < s.connID) :
    (runServer s es).clients =
      (s.clients ∪ (admittedIds s es).toFinset) \ (exitedIds es).toFinset := by
  induction es generalizing s with
  | nil => simp [runServer, admittedIds, exitedIds]
  | cons e es ih =>
    rw [List.length_cons] at h
    cases e with
    | accept =>
      have hwf' : wfTrace (stepServer s ServerEvent.accept) es = true := by
        simpa only [wfTrace] using hwf
      rcases onConn_cases s with ⟨hC, hg⟩ | ⟨hC, hg⟩
      · have hs : stepServer s ServerEvent.accept = s := by
          simp [stepServer, hC]
        have hA : admittedIds s (ServerEvent.accept :: es) =
            admittedIds s es := by
          simp only [admittedIds, hC]
        have hR : runServer s (ServerEvent.accept :: es) = runServer s es := by
          rw [runServer, hs]
        rw [hA, hR, exitedIds]
        exact ih s (by rw [hs] at hwf'; exact hwf') (by omega) hcl
      · have hmod : (s.connID + 1) % U64 = s.connID + 1 :=
          Nat.mod_eq_of_lt (by omega)
        set s' : ServerState :=
          { s with
              connID := (s.connID + 1) % U64,
              clients := insert s.connID s.clients } with hs'
        have hs'id : s'.connID = s.connID + 1 := by
          rw [hs', hmod]
        have hs : stepServer s ServerEvent.accept = s' := by
          simp [stepServer, hC, hs']
        have hA : admittedIds s (ServerEvent.accept :: es) =
            s.connID :: admittedIds s' es := by
          simp only [admittedIds, hC]
        have hR : runServer s (ServerEvent.accept :: es) = runServer s' es := by
          rw [runServer, hs]
        have hcl' : ∀ x ∈ s'.clients, x < s'.connID := by
          intro x hx
          rw [hs'id]
          have hx' : x = s.connID ∨ x ∈ s.clients := by
            simpa [hs'] using hx
          rcases hx' with rfl | hx'
          · omega
          · have := hcl x hx'
            omega
        have ihs := ih s' (by rw [hs] at hwf'; exact hwf')
          (by rw [hs'id]; omega) hcl'
        rw [hA, hR, exitedIds, ihs]
        have hclients : s'.clients = insert s.connID s.clients := by
          rw [hs']
        rw [hclients, List.toFinset_cons, Finset.union_insert,
          Finset.insert_union]
    | exit id =>
      have hwf2 := hwf
      rw [wfTrace, Bool.and_eq_true, decide_eq_true_eq] at hwf2
      obtain ⟨hid, hwf'⟩ := hwf2
      set s' : ServerState := (handlerExit s id).1 with hs'
      have hstep : stepServer s (ServerEvent.exit id) = s' := rfl
      have hs'id : s'.connID = s.connID := by
        rw [hs']; simp [handlerExit]
      have hs'cl : s'.clients = s.clients.erase id := by
        rw [hs']; simp [handlerExit]
      have hcl' : ∀ x ∈ s'.clients, x < s'.connID := by
        intro x hx
        rw [hs'id]
        exact hcl x (Finset.mem_of_mem_erase (hs'cl ▸ hx))
      have hA : admittedIds s (ServerEvent.exit id :: es) =
          admittedIds s' es := by
        simp only [admittedIds, hstep]
      have hR : runServer s (ServerEvent.exit id :: es) = runServer s' es := by
        rw [runServer, hstep]
      have hidlt : id < s.connID := hcl id hid
      have hidA : id ∉ admittedIds s' es := by
        intro hmem
        have := (admittedIds_facts es s' (by rw [hs'id]; omega)).2.1 id hmem
        rw [hs'id] at this
        omega
      have ihs := ih s' (hstep ▸ hwf') (by rw [hs'id]; omega) hcl'
      rw [hA, hR, exitedIds, ihs, hs'cl, List.toFinset_cons]
      ext a
      by_cases ha : a = id
      · subst ha
        simp [Finset.not_mem_erase, hidA]
      · simp only [Finset.mem_sdiff, Finset.mem_union, Finset.mem_erase,
          Finset.mem_insert, List.mem_toFinset, ha, false_or]
        tauto

/-! ## Shutdown (embedding of `SQLServer.Close`) -/

/-- Ordered events of the shutdown sequence. -/
inductive CloseEvent where
  | stopListener
  | closeConn (connID : Nat)
  | waitHandlers
  | ret
  deriving DecidableEq, Repr

/-- An individual close failure collected during shutdown. -/
inductive CloseErr where
  | listener
  | conn (connID : Nat)
  deriving DecidableEq, Repr

/-- Embedding of `errors.Collect(ErrCloseServer, errs...)`: `none` when no
individual error was collected, otherwise the aggregate of all of them. -/
def collectErrors (errs : List CloseErr) : Option (List CloseErr) :=
  if errs = [] then none else some errs

/-- The errors collected by `SQLServer.Close`: the listener-close error if
any, followed by one error per registered connection whose close failed. -/
def closeErrs (s : ServerState) (listenerCloseFails : Bool)
    (connCloseFails : Nat → Bool) : List CloseErr :=
  (if listenerCloseFails then [CloseErr.listener] else []) ++
    ((s.clients.sort (· ≤ ·)).filter (fun id => connCloseFails id)).map
      CloseErr.conn

/-- Embedding of `SQLServer.Close`, lines 152–173: close the listener
(collecting its error), then under the lock close every registered
connection in turn, collecting each failure without stopping, then
`wg.Wait()` for all per-connection handlers, and only then return the
aggregated error.  The event list records the order of the sequence;
`connCloseFails`/`listenerCloseFails` say which socket closes fail. -/
def closeServer (s : ServerState) (listenerCloseFails : Bool)
    (connCloseFails : Nat → Bool) :
    List CloseEvent × Option (List CloseErr) :=
  (CloseEvent.stopListener ::
      ((s.clients.sort (· ≤ ·)).map CloseEvent.closeConn ++
        [CloseEvent.waitHandlers, CloseEvent.ret]),
    collectErrors (closeErrs s listenerCloseFails connCloseFails))

theorem closeErrs_eq_nil (s : ServerState) (lF : Bool) (cF : Nat → Bool) :
    closeErrs s lF cF = [] ↔
      lF = false ∧ ∀ id ∈ s.clients, cF id = false := by
  rw [closeErrs, List.append_eq_nil]
  constructor
  · rintro ⟨h1, h2⟩
    refine ⟨?_, ?_⟩
    · cases lF
      · rfl
      · simp at h1
    · intro id hid
      rw [List.map_eq_nil_iff, List.filter_eq_nil_iff] at h2
      have := h2 id ((Finset.mem_sort _).mpr hid)
      simpa using this
  · rintro ⟨h1, h2⟩
    subst h1
    refine ⟨rfl, ?_⟩
    rw [List.map_eq_nil_iff, List.filter_eq_nil_iff]
    intro a ha
    simp [h2 a ((Finset.mem_sort _).mp ha)]

theorem collectErrors_eq_none (errs : List CloseErr) :
    collectErrors errs = none ↔ errs = [] := by
  rw [collectErrors]
  split_ifs with h <;> simp [h]

/-! ## Claim theorems for the registry / server -/

/-- **C2.** For every reachable state of the server with a nonzero
`maxConnections` limit, the number of registered client connections never
exceeds the limit: `onConn` performs the check and the registration in one
atomic step (in the source both happen under a single lock before it is
released), closing the new socket immediately — registering nothing,
leaving the state untouched, and writing no protocol bytes — when the
count is at or above the limit; and when `maxConnections` is `0` no
connection is ever rejected by admission. -/
theorem admission_limit_enforced (keepAlive : Bool) (maxConns : Nat)
    (es : List ServerEvent) :
    (maxConns ≠ 0 →
      (runServer (initServer keepAlive maxConns) es).clients.card ≤
        maxConns) ∧
    (∀ s : ServerState, (onConn s).2.1 = AdmitResult.rejected →
      (onConn s).1 = s ∧ (onConn s).2.2 = [SocketOp.closeSocket] ∧
        ∀ n, SocketOp.writeBytes n ∉ (onConn s).2.2) ∧
    (∀ s : ServerState, s.maxConnections = 0 →
      (onConn s).2.1 ≠ AdmitResult.rejected) := by
  refine ⟨?_, ?_, ?_⟩
  · intro hmax
    exact run_card_le es (initServer keepAlive maxConns) hmax
      (by simp [initServer])
  · intro s hrej
    rcases onConn_cases s with ⟨hC, _⟩ | ⟨hC, _⟩
    · rw [hC]
      refine ⟨rfl, rfl, ?_⟩
      intro n
      simp
    · rw [hC] at hrej
      simp at hrej
  · intro s h0 hrej
    rcases onConn_cases s with ⟨_, hg, _⟩ | ⟨hC, _⟩
    · exact hg h0
    · rw [hC] at hrej
      simp at hrej

/-- Witness for C2 at the spec's own example: with admission limit 2,
three concurrent accepts leave at most 2 registered sessions. -/
theorem admission_limit_enforced_witness :
    (runServer (initServer false 2)
      [ServerEvent.accept, ServerEvent.accept,
        ServerEvent.accept]).clients.card ≤ 2 :=
  (admission_limit_enforced false 2
    [ServerEvent.accept, ServerEvent.accept, ServerEvent.accept]).1
    (by decide)

/-- **C7.** Connection ids are assigned from a monotonic counter read and
incremented in the same locked section that registers the connection: along
any event trace shorter than `2^64` events (a process lifetime cannot
overflow the `uint64` counter), the admitted ids are pairwise strictly
increasing in admission order — so distinct connections get distinct ids
and a later-admitted connection gets a strictly larger id — and a rejected
connection leaves the counter untouched, consuming no id. -/
theorem conn_ids_unique_monotone (keepAlive : Bool) (maxConns : Nat)
    (es : List ServerEvent) (h : es.length < U64) :
    List.Pairwise (· < ·)
      (admittedIds (initServer keepAlive maxConns) es) ∧
    ∀ s : ServerState, (onConn s).2.1 = AdmitResult.rejected →
      (onConn s).1.connID = s.connID := by
  constructor
  · exact (admittedIds_facts es (initServer keepAlive maxConns)
      (by simpa [initServer] using h)).2.2
  · intro s hrej
    rcases onConn_cases s with ⟨hC, _⟩ | ⟨hC, _⟩
    · rw [hC]
    · rw [hC] at hrej
      simp at hrej

/-- Witness for C7: two admissions around a handler exit get the strictly
increasing ids `0 < 1`. -/
theorem conn_ids_unique_monotone_witness :
    List.Pairwise (· < ·)
      (admittedIds (initServer false 0)
        [ServerEvent.accept, ServerEvent.exit 0, ServerEvent.accept]) :=
  (conn_ids_unique_monotone false 0
    [ServerEvent.accept, ServerEvent.exit 0, ServerEvent.accept]
    (by norm_num [U64])).1

/-- **C10.** When a handler exits, its connection id is deleted from the
registry and its `ClientConnection` is closed; hence after any well-formed
trace (each handler exits once, while registered; shorter than the
`uint64` counter range) the registry holds exactly the ids of admitted
connections whose handlers have not yet exited. -/
theorem registry_tracks_live_handlers (keepAlive : Bool) (maxConns : Nat)
    (es : List ServerEvent)
    (hwf : wfTrace (initServer keepAlive maxConns) es = true)
    (h : es.length < U64) :
    (runServer (initServer keepAlive maxConns) es).clients =
      (admittedIds (initServer keepAlive maxConns) es).toFinset \
        (exitedIds es).toFinset ∧
    ∀ (s : ServerState) (id : Nat),
      (handlerExit s id).1.clients = s.clients.erase id ∧
      SocketOp.closeSocket ∈ (handlerExit s id).2 := by
  constructor
  · have hrun := run_clients_eq es (initServer keepAlive maxConns) hwf
      (by simpa [initServer] using h) (by simp [initServer])
    simpa [initServer] using hrun
  · intro s id
    exact ⟨rfl, by simp [handlerExit]⟩

/-- Witness for C10: admit id 0, admit id 1, exit handler 0 — the registry
is left holding exactly `{1}`. -/
theorem registry_tracks_live_handlers_witness :
    (runServer (initServer false 0)
      [ServerEvent.accept, ServerEvent.accept,
        ServerEvent.exit 0]).clients =
      (admittedIds (initServer false 0)
        [ServerEvent.accept, ServerEvent.accept,
          ServerEvent.exit 0]).toFinset \
        (exitedIds [ServerEvent.accept, ServerEvent.accept,
          ServerEvent.exit 0]).toFinset :=
  (registry_tracks_live_handlers false 0
    [ServerEvent.accept, ServerEvent.accept, ServerEvent.exit 0]
    (by decide) (by norm_num [U64])).1

/-- **C4.** `Close()` stops accepting, closes every registered connection
collecting individual close errors without aborting the sequence, waits on
the join barrier for every per-connection handler, and only then returns —
so no handler runs past a completed shutdown; it returns an aggregated
error exactly when the listener close or some individual connection close
failed. -/
theorem close_sequence_complete (s : ServerState)
    (listenerCloseFails : Bool) (connCloseFails : Nat → Bool) :
    (∃ pre,
      (closeServer s listenerCloseFails connCloseFails).1 =
        pre ++ [CloseEvent.waitHandlers, CloseEvent.ret] ∧
      ∀ id ∈ s.clients, CloseEvent.closeConn id ∈ pre) ∧
    ((closeServer s listenerCloseFails connCloseFails).2 = none ↔
      listenerCloseFails = false ∧
        ∀ id ∈ s.clients, connCloseFails id = false) := by
  constructor
  · refine ⟨CloseEvent.stopListener ::
      (s.clients.sort (· ≤ ·)).map CloseEvent.closeConn, ?_, ?_⟩
    · simp [closeServer]
    · intro id hid
      exact List.mem_cons_of_mem _
        (List.mem_map_of_mem _ ((Finset.mem_sort _).mpr hid))
  · rw [closeServer]
    rw [collectErrors_eq_none, closeErrs_eq_nil]

/-- Witness for C4: with two registered connections of which the close of
id 0 fails, the close of id 1 still happens before the join barrier and the
return, and the aggregated error is non-nil. -/
theorem close_sequence_complete_witness :
    (∃ pre,
      (closeServer
        { tcpKeepAlive := false, connID := 2, maxConnections := 0,
          clients := {0, 1} } false (fun id => id == 0)).1 =
        pre ++ [CloseEvent.waitHandlers, CloseEvent.ret] ∧
      CloseEvent.closeConn 1 ∈ pre) ∧
    (closeServer
      { tcpKeepAlive := false, connID := 2, maxConnections := 0,
        clients := {0, 1} } false (fun id => id == 0)).2 ≠ none := by
  have h := close_sequence_complete
    { tcpKeepAlive := false, connID := 2, maxConnections := 0,
      clients := {0, 1} } false (fun id => id == 0)
  constructor
  · obtain ⟨pre, h1, h2⟩ := h.1
    exact ⟨pre, h1, h2 1 (by decide)⟩
  · intro hnone
    have := (h.2.mp hnone).2 0 (by decide)
    simp at this

/-! ## Administrative HTTP surface (embedding of `api.go`) -/

/-- Embedding of `CommonJsonResp`: the `{code:int, msg:string}` JSON body
returned by every admin handler. -/
structure CommonJsonResp where
  code : Int
  msg : String
  deriving DecidableEq, Repr

/-- Embedding of `CreateJsonResp`. -/
def CreateJsonResp (code : Int) (msg : String) : CommonJsonResp :=
  { code := code, msg := msg }

/-- Embedding of `CreateSuccessJsonResp`: `http.StatusOK` with msg
`success`. -/
def CreateSuccessJsonResp : CommonJsonResp :=
  { code := 200, msg := "success" }

/-- Embedding of `NamespaceHttpHandler.HandleRemoveNamespace`: the pair is
(HTTP status, JSON body).  `RemoveNamespace` itself returns nothing, so the
only failure branch is an empty `:namespace` parameter. -/
def HandleRemoveNamespace (ns : String) : Nat × CommonJsonResp :=
  if ns = "" then (200, CreateJsonResp 400 "bad namespace parameter")
  else (200, CreateSuccessJsonResp)

/-- Embedding of `NamespaceHttpHandler.HandlePrepareReload`.  The two
booleans say whether `cfgCenter.GetNamespace` and
`nsmgr.PrepareReloadNamespace` return errors. -/
def HandlePrepareReload (ns : String)
    (getNamespaceFails prepareFails : Bool) : Nat × CommonJsonResp :=
  if ns = "" then (200, CreateJsonResp 400 "bad namespace parameter")
  else if getNamespaceFails then
    (200, CreateJsonResp 500 "get namespace value from configcenter error")
  else if prepareFails then
    (200, CreateJsonResp 500 "prepare reload namespace error")
  else (200, CreateSuccessJsonResp)

/-- Embedding of `NamespaceHttpHandler.HandleCommitReload`. -/
def HandleCommitReload (ns : String) (commitFails : Bool) :
    Nat × CommonJsonResp :=
  if ns = "" then (200, CreateJsonResp 400 "bad namespace parameter")
  else if commitFails then
    (200, CreateJsonResp 500 "commit reload namespace error")
  else (200, CreateSuccessJsonResp)

/-- Embedding of `TestHttpHandler.Redirect`: the boolean says whether
`nsmgr.RedirectConnections` returns an error. -/
def HandleRedirect (redirectFails : Bool) : Nat × CommonJsonResp :=
  if redirectFails then
    (200, CreateJsonResp 500 "redirect connections error")
  else (200, CreateSuccessJsonResp)

/-- A response carries its application outcome only in the embedded body:
HTTP status 200, and a body code of 200 (msg `success`), 400 or 500. -/
def jsonContractOk (r : Nat × CommonJsonResp) : Prop :=
  r.1 = 200 ∧
    ((r.2.code = 200 ∧ r.2.msg = "success") ∨ r.2.code = 400 ∨
      r.2.code = 500)

/-- Embedding of `HttpApiServer.wrapBasicAuthGinMiddleware`, lines 115–121:
the basic-auth middleware is added to the `/admin/namespace` route group
only when both the configured admin user and the admin password are
non-empty. -/
def basicAuthInstalled (user password : String) : Bool :=
  user != "" && password != ""

/-- Modelled from the spec: the runtime behaviour of the installed
`gin.BasicAuth` middleware is external library code absent from the
sources; per the spec, basic-auth failures answer HTTP 401 and
everything else reaches the route handler untouched.  When the middleware
was not installed the handler's own response is always served. -/
def serveNamespaceAdmin (user password : String) (credsValid : Bool)
    (handlerResp : Nat × CommonJsonResp) : Nat × Option CommonJsonResp :=
  if basicAuthInstalled user password && !credsValid then (401, none)
  else (handlerResp.1, some handlerResp.2)

/-! ### Claim theorems for the HTTP surface -/

/-- **C8.** Every response of the admin namespace handlers (remove,
reload/prepare, reload/commit) and the test redirect handler is a
`{code, msg}` JSON body served with HTTP status 200 in every branch, the
application outcome being carried only in the embedded `code`: 200 with
msg `success` exactly on success, and 400 (bad parameter) or 500
(internal error) in the body on failure. -/
theorem admin_json_contract :
    (∀ ns, jsonContractOk (HandleRemoveNamespace ns) ∧
      ((HandleRemoveNamespace ns).2.code = 200 ↔ ns ≠ "")) ∧
    (∀ ns gF pF, jsonContractOk (HandlePrepareReload ns gF pF) ∧
      ((HandlePrepareReload ns gF pF).2.code = 200 ↔
        ns ≠ "" ∧ gF = false ∧ pF = false)) ∧
    (∀ ns cF, jsonContractOk (HandleCommitReload ns cF) ∧
      ((HandleCommitReload ns cF).2.code = 200 ↔
        ns ≠ "" ∧ cF = false)) ∧
    (∀ rF, jsonContractOk (HandleRedirect rF) ∧
      ((HandleRedirect rF).2.code = 200 ↔ rF = false)) := by
  refine ⟨?_, ?_, ?_, ?_⟩
  · intro ns
    by_cases hns : ns = "" <;>
      simp [HandleRemoveNamespace, jsonContractOk, CreateJsonResp,
        CreateSuccessJsonResp, hns]
  · intro ns gF pF
    by_cases hns : ns = "" <;> cases gF <;> cases pF <;>
      simp [HandlePrepareReload, jsonContractOk, CreateJsonResp,
        CreateSuccessJsonResp, hns]
  · intro ns cF
    by_cases hns : ns = "" <;> cases cF <;>
      simp [HandleCommitReload, jsonContractOk, CreateJsonResp,
        CreateSuccessJsonResp, hns]
  · intro rF
    cases rF <;>
      simp [HandleRedirect, jsonContractOk, CreateJsonResp,
        CreateSuccessJsonResp]

/-- **C9.** The basic-auth middleware on the `/admin/namespace` group is
installed exactly when both the configured admin user and password are
non-empty; when either is empty every request is served with the handler's
own response, without any authentication check, so the HTTP 401 path
cannot occur. -/
theorem basic_auth_conditional (user password : String) :
    (basicAuthInstalled user password = true ↔
      user ≠ "" ∧ password ≠ "") ∧
    ((user = "" ∨ password = "") →
      ∀ (credsValid : Bool) (handlerResp : Nat × CommonJsonResp),
        serveNamespaceAdmin user password credsValid handlerResp =
          (handlerResp.1, some handlerResp.2) ∧
        (handlerResp.1 ≠ 401 →
          (serveNamespaceAdmin user password credsValid
            handlerResp).1 ≠ 401)) := by
  constructor
  · simp [basicAuthInstalled]
  · intro hempty credsValid handlerResp
    have hinst : basicAuthInstalled user password = false := by
      rcases hempty with h | h <;> simp [basicAuthInstalled, h]
    constructor
    · simp [serveNamespaceAdmin, hinst]
    · intro h401
      simpa [serveNamespaceAdmin, hinst] using h401

/-- Witness for C9: with an empty admin user the namespace handler's
response passes through even for invalid credentials. -/
theorem basic_auth_conditional_witness :
    serveNamespaceAdmin "" "secret" false (HandleRemoveNamespace "ns1") =
      ((HandleRemoveNamespace "ns1").1,
        some (HandleRemoveNamespace "ns1").2) :=
  ((basic_auth_conditional "" "secret").2 (Or.inl rfl) false
    (HandleRemoveNamespace "ns1")).1

/-! ## Backend connection manager

The implementation of the backend handshake, auth-plugin exchange, second
handshake and redirection belongs to this repository but is not among the
sources — only its test file (`TestTLSConnection`, `TestAuthPlugin`,
`TestSecondHandshake`) is.  The definitions below are therefore modelled
from the specification, as marked. -/

/-- The two supported auth plugins. -/
inductive AuthPlugin where
  | nativePassword
  | cachingSha2Password
  deriving DecidableEq, Repr

/-- The explicit auth-exchange state machine mandated by the spec. -/
inductive AuthState where
  | awaitingGreeting
  | awaitingAuthResult
  | awaitingAuthSwitch
  | awaitingFastAuthResult
  | established
  | failed
  deriving DecidableEq, Repr

/-- Errors of the backend handshake. -/
inductive HsError where
  | tlsRequired
  | accessDenied
  | protocolError
  deriving DecidableEq, Repr

/-- Packets the backend can send during the handshake. -/
inductive BackendMsg where
  | greeting (plugin : AuthPlugin)
  | okPacket
  | errPacket
  | authSwitchReq (plugin : AuthPlugin)
  | fastAuthOk
  | fullAuthNeeded
  deriving DecidableEq, Repr

/-- Packets the proxy sends towards the backend during the handshake. -/
inductive ProxyAction where
  | sendHandshakeResponse (capability : Nat) (plugin : AuthPlugin)
      (withCredential : Bool)
  | sendSwitchResponse (plugin : AuthPlugin)
  | sendEncryptedPassword
  deriving DecidableEq, Repr

/-- Whether a proxy packet carries credential bytes (scramble, encrypted
password). -/
def credentialBearing : ProxyAction → Bool
  | ProxyAction.sendHandshakeResponse _ _ withCredential => withCredential
  | ProxyAction.sendSwitchResponse _ => true
  | ProxyAction.sendEncryptedPassword => true

/-- Inputs of a proxy→backend handshake: the capability bitsets involved
and the TLS situation on both sides. -/
structure BackendHandshakeCtx where
  clientCapability : Nat
  backendCapability : Nat
  policyCapability : Nat
  backendMandatesTLS : Bool
  clientTLSCompleted : Bool
  deriving DecidableEq, Repr

/-- Modelled from the spec: the capability set the proxy offers the
backend — policy-mandated minimum, unioned with what the client offered,
intersected with what the backend advertises. -/
def offeredCapability (ctx : BackendHandshakeCtx) : Nat :=
  (ctx.policyCapability ||| ctx.clientCapability) &&& ctx.backendCapability

/-- Modelled from the spec: one transition of the backend handshake state
machine of the Backend Connection Manager (its implementation is absent
from the sources).  On the greeting, if the backend mandates TLS and the
client-facing session never completed TLS, fail immediately with the
TLS-required error before sending any credential bytes; otherwise answer
with the backend's requested plugin.  Auth-switch triggers the
plugin-specific sub-exchange, fast-auth results are legal only while one
is awaited, and every illegal transition is a protocol error. -/
def hsStep (ctx : BackendHandshakeCtx) (st : AuthState) (msg : BackendMsg) :
    AuthState × Option HsError × List ProxyAction :=
  match st, msg with
  | AuthState.awaitingGreeting, BackendMsg.greeting plugin =>
    if ctx.backendMandatesTLS && !ctx.clientTLSCompleted then
      (AuthState.failed, some HsError.tlsRequired, [])
    else
      ((if plugin = AuthPlugin.cachingSha2Password then
          AuthState.awaitingFastAuthResult
        else AuthState.awaitingAuthResult),
        none,
        [ProxyAction.sendHandshakeResponse (offeredCapability ctx) plugin
          true])
  | AuthState.awaitingAuthResult, BackendMsg.okPacket =>
    (AuthState.established, none, [])
  | AuthState.awaitingAuthResult, BackendMsg.errPacket =>
    (AuthState.failed, some HsError.accessDenied, [])
  | AuthState.awaitingAuthResult, BackendMsg.authSwitchReq p =>
    ((if p = AuthPlugin.cachingSha2Password then
        AuthState.awaitingFastAuthResult
      else AuthState.awaitingAuthSwitch),
      none, [ProxyAction.sendSwitchResponse p])
  | AuthState.awaitingAuthSwitch, BackendMsg.okPacket =>
    (AuthState.established, none, [])
  | AuthState.awaitingAuthSwitch, BackendMsg.errPacket =>
    (AuthState.failed, some HsError.accessDenied, [])
  | AuthState.awaitingFastAuthResult, BackendMsg.authSwitchReq p =>
    ((if p = AuthPlugin.cachingSha2Password then
        AuthState.awaitingFastAuthResult
      else AuthState.awaitingAuthSwitch),
      none, [ProxyAction.sendSwitchResponse p])
  | AuthState.awaitingFastAuthResult, BackendMsg.fastAuthOk =>
    (AuthState.awaitingAuthResult, none, [])
  | AuthState.awaitingFastAuthResult, BackendMsg.fullAuthNeeded =>
    (AuthState.awaitingAuthResult, none,
      [ProxyAction.sendEncryptedPassword])
  | AuthState.awaitingFastAuthResult, BackendMsg.okPacket =>
    (AuthState.established, none, [])
  | AuthState.awaitingFastAuthResult, BackendMsg.errPacket =>
    (AuthState.failed, some HsError.accessDenied, [])
  | _, _ => (AuthState.failed, some HsError.protocolError, [])

/-- Run the backend handshake over the backend's packets, stopping at the
first error (the connection is torn down there). -/
def runHs (ctx : BackendHandshakeCtx) :
    AuthState → List BackendMsg →
      AuthState × Option HsError × List ProxyAction
  | st, [] => (st, none, [])
  | st, m :: ms =>
    match hsStep ctx st m with
    | (st', some e, as) => (st', some e, as)
    | (st', none, as) =>
      match runHs ctx st' ms with
      | (st'', e', as') => (st'', e', as ++ as')

/-- Modelled from the spec: the packets a backend with the given plugin,
auth-switch behaviour and cache state sends after its greeting, when the
relayed credentials match or not.  native-password is a single round trip;
caching-sha2-password answers the fast path on a cache hit and otherwise
requests the full exchange with an RSA-encrypted credential transfer. -/
def pluginMsgs (p : AuthPlugin) (cacheHit credsMatch : Bool) :
    List BackendMsg :=
  match p with
  | AuthPlugin.nativePassword =>
    [if credsMatch then BackendMsg.okPacket else BackendMsg.errPacket]
  | AuthPlugin.cachingSha2Password =>
    if cacheHit then
      if credsMatch then [BackendMsg.fastAuthOk, BackendMsg.okPacket]
      else [BackendMsg.errPacket]
    else
      [BackendMsg.fullAuthNeeded,
        if credsMatch then BackendMsg.okPacket else BackendMsg.errPacket]

/-- The full packet sequence a backend sends: greeting, optionally an
auth-switch to its plugin, then the plugin-specific exchange. -/
def backendMsgs (backendPlugin : AuthPlugin)
    (switchAuth cacheHit credsMatch : Bool) : List BackendMsg :=
  BackendMsg.greeting backendPlugin ::
    (if switchAuth then
      BackendMsg.authSwitchReq backendPlugin ::
        pluginMsgs backendPlugin cacheHit credsMatch
    else pluginMsgs backendPlugin cacheHit credsMatch)

/-- Modelled from the spec: the client-side authentication of the Client
Connection (absent from the sources).  The proxy greets with its configured
plugin; if the client answered with a different plugin the proxy issues an
auth-switch request and re-reads; credential verification is delegated to
the namespace policy, so it accepts exactly when the credentials match.
The second component counts the auth responses read. -/
def clientAuthRun (proxyPlugin clientPlugin : AuthPlugin)
    (credsMatch : Bool) : Bool × Nat :=
  if clientPlugin = proxyPlugin then (credsMatch, 1)
  else (credsMatch, 2)

/-! ### Claim theorems for the backend handshake -/

/-- **C1.** For every combination of client and backend capability bitsets
(and whatever the backend would have sent next), if the backend mandates
TLS and the client-facing session never completed TLS, the backend
handshake fails with the TLS-required error straight from the greeting,
and no credential-bearing packet is ever sent to the backend — other
capability flags cannot override the check. -/
theorem backend_tls_required (ctx : BackendHandshakeCtx) (p : AuthPlugin)
    (rest : List BackendMsg)
    (hM : ctx.backendMandatesTLS = true)
    (hC : ctx.clientTLSCompleted = false) :
    runHs ctx AuthState.awaitingGreeting (BackendMsg.greeting p :: rest) =
      (AuthState.failed, some HsError.tlsRequired, []) ∧
    ∀ a ∈ (runHs ctx AuthState.awaitingGreeting
        (BackendMsg.greeting p :: rest)).2.2,
      credentialBearing a = false := by
  have h1 : runHs ctx AuthState.awaitingGreeting
      (BackendMsg.greeting p :: rest) =
      (AuthState.failed, some HsError.tlsRequired, []) := by
    simp [runHs, hsStep, hM, hC]
  refine ⟨h1, ?_⟩
  rw [h1]
  simp

/-- Witness for C1: a backend that mandates TLS facing a session without
TLS, with capability bits that would otherwise satisfy the handshake. -/
theorem backend_tls_required_witness :
    runHs ⟨4095, 4095, 4095, true, false⟩ AuthState.awaitingGreeting
        [BackendMsg.greeting AuthPlugin.nativePassword,
          BackendMsg.okPacket] =
      (AuthState.failed, some HsError.tlsRequired, []) :=
  (backend_tls_required ⟨4095, 4095, 4095, true, false⟩
    AuthPlugin.nativePassword [BackendMsg.okPacket] rfl rfl).1

/-- **C6.** For every pairing of the supported auth plugins independently
chosen on the client side and on the backend side, and for every setting
of the backend's auth-switch behaviour (and of the caching-sha2 cache),
authentication completes successfully whenever the credentials match:
the backend handshake reaches `established` and the client-side exchange
accepts, including when the two sides chose different plugins. -/
theorem auth_plugin_matrix (ctx : BackendHandshakeCtx)
    (clientPlugin proxyPlugin backendPlugin : AuthPlugin)
    (switchAuth cacheHit : Bool)
    (hTLS : ctx.backendMandatesTLS = false ∨
      ctx.clientTLSCompleted = true) :
    (runHs ctx AuthState.awaitingGreeting
        (backendMsgs backendPlugin switchAuth cacheHit true)).1 =
      AuthState.established ∧
    (clientAuthRun proxyPlugin clientPlugin true).1 = true := by
  constructor
  · rcases hTLS with h | h <;>
      cases backendPlugin <;> cases switchAuth <;> cases cacheHit <;>
        simp [backendMsgs, pluginMsgs, runHs, hsStep, h]
  · rw [clientAuthRun]
    split_ifs <;> rfl

/-- Witness for C6: client on native-password, backend on
caching-sha2-password with auth-switch enabled and a cache miss — matching
credentials still authenticate. -/
theorem auth_plugin_matrix_witness :
    (runHs ⟨0, 0, 0, false, false⟩ AuthState.awaitingGreeting
        (backendMsgs AuthPlugin.cachingSha2Password true false true)).1 =
      AuthState.established ∧
    (clientAuthRun AuthPlugin.cachingSha2Password
      AuthPlugin.nativePassword true).1 = true :=
  auth_plugin_matrix ⟨0, 0, 0, false, false⟩ AuthPlugin.nativePassword
    AuthPlugin.cachingSha2Password AuthPlugin.cachingSha2Password
    true false (Or.inl rfl)

/-! ## Second handshake (claim C5) -/

/-- The session state the second handshake touches: the physical backend
socket, the current identity/schema, the backend-session phase, and
whether the client connection is open. -/
structure SessionIdentity where
  backendSocket : Nat
  user : String
  db : String
  phase : AuthState
  clientOpen : Bool
  deriving DecidableEq, Repr

/-- Result of a second handshake. -/
structure SecondHsOutcome where
  session : SessionIdentity
  newSocketsOpened : Nat
  errToClient : Option String
  deriving DecidableEq, Repr

/-- Modelled from the spec: the second handshake of the Backend Connection
Manager (absent from the sources; only `TestSecondHandshake` is present).
On an identity/schema-changing client command the relevant handshake
subset re-runs against the *same* physical backend socket with the new
user/db — no new socket is opened.  On failure the backend's error is
surfaced to the client, the BackendSession is left `failed` with no
rollback to the prior identity, and the client connection stays open. -/
def secondHandshake (s : SessionIdentity) (newUser newDb : String)
    (backendAccepts : Bool) (backendErr : String) : SecondHsOutcome :=
  if backendAccepts then
    { session :=
        { s with
            user := newUser,
            db := newDb,
            phase := AuthState.established },
      newSocketsOpened := 0,
      errToClient := none }
  else
    { session :=
        { s with
            user := newUser,
            db := newDb,
            phase := AuthState.failed },
      newSocketsOpened := 0,
      errToClient := some backendErr }

/-- **C5.** An identity/schema-changing command re-runs the handshake
subset on the same physical backend connection — no new socket is ever
opened; on failure the backend's error reaches the client, the
BackendSession is marked failed holding the attempted identity (no
rollback), and the client connection's open state is untouched. -/
theorem second_handshake_same_socket (s : SessionIdentity)
    (newUser newDb : String) (backendAccepts : Bool)
    (backendErr : String) :
    (secondHandshake s newUser newDb backendAccepts
      backendErr).newSocketsOpened = 0 ∧
    (secondHandshake s newUser newDb backendAccepts
      backendErr).session.backendSocket = s.backendSocket ∧
    (backendAccepts = false →
      (secondHandshake s newUser newDb backendAccepts
        backendErr).errToClient = some backendErr ∧
      (secondHandshake s newUser newDb backendAccepts
        backendErr).session.phase = AuthState.failed ∧
      (secondHandshake s newUser newDb backendAccepts
        backendErr).session.user = newUser ∧
      (secondHandshake s newUser newDb backendAccepts
        backendErr).session.clientOpen = s.clientOpen) := by
  cases backendAccepts <;> simp [secondHandshake]

/-- Witness for C5: a failing `COM_CHANGE_USER` keeps the socket, marks
the session failed and relays the backend's error. -/
theorem second_handshake_same_socket_witness :
    (secondHandshake
      { backendSocket := 3, user := "u1", db := "db1",
        phase := AuthState.established, clientOpen := true }
      "another_user" "another_db" false "ERR 1045").newSocketsOpened = 0 ∧
    (secondHandshake
      { backendSocket := 3, user := "u1", db := "db1",
        phase := AuthState.established, clientOpen := true }
      "another_user" "another_db" false "ERR 1045").errToClient =
      some "ERR 1045" := by
  have h := second_handshake_same_socket
    { backendSocket := 3, user := "u1", db := "db1",
      phase := AuthState.established, clientOpen := true }
    "another_user" "another_db" false "ERR 1045"
  exact ⟨h.1, (h.2.2 rfl).1⟩

/-! ## Redirection (claim C3) -/

/-- Client-side session state: per the spec it is never touched by
redirection. -/
structure ClientSessionState where
  connID : Nat
  capability : Nat
  authPlugin : AuthPlugin
  schema : String
  tlsCompleted : Bool
  deriving DecidableEq, Repr

/-- A backend session: one physical socket, its address, its phase. -/
structure BackendSession where
  socketId : Nat
  addr : String
  phase : AuthState
  deriving DecidableEq, Repr

/-- A proxied session: the client state, the exclusive reference to one
BackendSession, and the redirect handshakes currently in flight. -/
structure ProxySession where
  client : ClientSessionState
  backend : BackendSession
  pendingRedirects : List String
  deriving DecidableEq, Repr

/-- Redirection events: an external request towards a target address, or
the completion of the off-path target handshake. -/
inductive RedirectEvent where
  | request (target : String)
  | finish (handshakeOk : Bool) (newSocket : Nat)
  deriving DecidableEq, Repr

/-- What a redirection step reports, and to whom. -/
inductive RedirectOutcome where
  | started
  | deferredBusy
  | swapped (closedOldSocket : Nat)
  | failedToCaller (target : String)
  | spurious
  deriving DecidableEq, Repr

/-- Modelled from the spec: the redirection algorithm of the Backend
Connection Manager (no redirection code is among the sources).  A request
is taken only when no redirection is in flight; the target handshake runs
off the client path; on success the BackendSession reference is atomically
replaced and the old socket closed, on failure the existing BackendSession
is kept, the ClientSession is untouched, and the failure is reported to
the triggering caller. -/
def redirectStep (s : ProxySession) :
    RedirectEvent → ProxySession × RedirectOutcome
  | RedirectEvent.request t =>
    if s.pendingRedirects = [] then
      ({ s with pendingRedirects := [t] }, RedirectOutcome.started)
    else (s, RedirectOutcome.deferredBusy)
  | RedirectEvent.finish ok newSocket =>
    match s.pendingRedirects with
    | [] => (s, RedirectOutcome.spurious)
    | t :: _ =>
      if ok then
        ({ s with
            backend :=
              { socketId := newSocket, addr := t,
                phase := AuthState.established },
            pendingRedirects := [] },
          RedirectOutcome.swapped s.backend.socketId)
      else
        ({ s with pendingRedirects := [] },
          RedirectOutcome.failedToCaller t)

/-- Run a sequence of redirection events. -/
def runRedirects (s : ProxySession) : List RedirectEvent → ProxySession
  | [] => s
  | e :: es => runRedirects (redirectStep s e).1 es

theorem redirectStep_pending_le (s : ProxySession) (e : RedirectEvent)
    (h : s.pendingRedirects.length ≤ 1) :
    (redirectStep s e).1.pendingRedirects.length ≤ 1 := by
  cases e with
  | request t =>
    by_cases hp : s.pendingRedirects = [] <;> simp [redirectStep, hp]
    exact h
  | finish ok newSocket =>
    cases hp : s.pendingRedirects with
    | nil => simp [redirectStep, hp]
    | cons t rest =>
      by_cases hok : ok = true <;> simp [redirectStep, hp, hok]

/-- **C3.** At most one redirection is ever in flight per session, a
redirection step never touches the ClientSession, and a redirection whose
target handshake fails leaves the session exactly as it was — the
existing BackendSession kept, the ClientSession untouched — with the
failure reported to the triggering caller rather than to the client. -/
theorem redirect_single_flight_failsafe (s : ProxySession)
    (es : List RedirectEvent) (hstart : s.pendingRedirects.length ≤ 1) :
    (runRedirects s es).pendingRedirects.length ≤ 1 ∧
    (∀ (s' : ProxySession) (e : RedirectEvent),
      (redirectStep s' e).1.client = s'.client) ∧
    (∀ (s' : ProxySession) (t : String) (rest : List String)
        (newSocket : Nat),
      s'.pendingRedirects = t :: rest →
        (redirectStep s' (RedirectEvent.finish false newSocket)).1.backend =
          s'.backend ∧
        (redirectStep s' (RedirectEvent.finish false newSocket)).1.client =
          s'.client ∧
        (redirectStep s' (RedirectEvent.finish false newSocket)).2 =
          RedirectOutcome.failedToCaller t) := by
  refine ⟨?_, ?_, ?_⟩
  · induction es generalizing s with
    | nil => exact hstart
    | cons e es ih =>
      rw [runRedirects]
      exact ih _ (redirectStep_pending_le s e hstart)
  · intro s' e
    cases e with
    | request t =>
      by_cases hp : s'.pendingRedirects = [] <;> simp [redirectStep, hp]
    | finish ok newSocket =>
      cases hp : s'.pendingRedirects with
      | nil => simp [redirectStep, hp]
      | cons t rest =>
        by_cases hok : ok = true <;> simp [redirectStep, hp, hok]
  · intro s' t rest newSocket hp
    simp [redirectStep, hp]

/-- Witness for C3: a failed redirection of a session towards `b2` keeps
the original backend and stays within the single-flight bound. -/
theorem redirect_single_flight_failsafe_witness :
    (runRedirects
      { client :=
          { connID := 0, capability := 0,
            authPlugin := AuthPlugin.nativePassword, schema := "db",
            tlsCompleted := false },
        backend :=
          { socketId := 1, addr := "b1",
            phase := AuthState.established },
        pendingRedirects := [] }
      [RedirectEvent.request "b2", RedirectEvent.request "b3",
        RedirectEvent.finish false 7]).pendingRedirects.length ≤ 1 :=
  (redirect_single_flight_failsafe
    { client :=
        { connID := 0, capability := 0,
          authPlugin := AuthPlugin.nativePassword, schema := "db",
          tlsCompleted := false },
      backend :=
        { socketId := 1, addr := "b1", phase := AuthState.established },
      pendingRedirects := [] }
    [RedirectEvent.request "b2", RedirectEvent.request "b3",
      RedirectEvent.finish false 7] (by simp)).1

end TiProxy
